import Mathlib

/-!
Fan tachometer (Marlin/fantachs.cpp, Marlin/fantachs.h).

A shallow embedding of the `FanTachs` class: the static members become the
fields of a record, every member function becomes a function on that record,
and the preprocessor switches (`HAS_TACH_*`, `FANTACH_INTERRUPT`) together
with the configuration constants (`TACH_*_PPR`, `FANTACH_SAMPLE_WINDOW_MS`)
become the fields of a `Config` record.

Machine integers are natural numbers; the width of every operation that can
wrap is written out (`% 2^16` for `uint16_t`, `% 2^32` for `uint32_t` and
`millis_t`).  A division whose divisor is zero has no defined result in C, so
the RPM conversion returns an `Option`.
-/

namespace FanTach

/-- The build configuration: the preprocessor symbols that `fantachs.cpp`
reads.  They are defined outside the two source files, so they are taken as
parameters. -/
structure Config where
  /-- Switch `ENABLED(FANTACH_INTERRUPT)`: interrupt-driven counting; otherwise polled. -/
  FANTACH_INTERRUPT : Bool
  HAS_TACH_E0 : Bool
  HAS_TACH_E1 : Bool
  HAS_TACH_0 : Bool
  HAS_TACH_1 : Bool
  TACH_E0_PPR : Nat
  TACH_E1_PPR : Nat
  TACH_0_PPR : Nat
  TACH_1_PPR : Nat
  FANTACH_SAMPLE_WINDOW_MS : Nat
  deriving DecidableEq, Repr

/-- The four tachometer channels of the class. -/
inductive Channel where
  | e0
  | e1
  | f0
  | f1
  deriving DecidableEq, Repr

/-- The static data members of `class FanTachs`.  A member that is compiled
out (`#if HAS_TACH_x` off) is kept as a field that no operation reads or
writes. -/
structure FanTachs where
  count_e0 : Nat
  rpm_e0 : Nat
  count_e1 : Nat
  rpm_e1 : Nat
  count_0 : Nat
  rpm_0 : Nat
  count_1 : Nat
  rpm_1 : Nat
  state_e0 : Nat
  state_e1 : Nat
  state_0 : Nat
  state_1 : Nat
  last_rpm_update_ms : Nat
  last_rpm_interval_ms : Nat
  deriving DecidableEq, Repr

/-- The static initialisers of fantachs.cpp, lines 62-101: every member is 0. -/
def initial : FanTachs :=
  { count_e0 := 0, rpm_e0 := 0, count_e1 := 0, rpm_e1 := 0,
    count_0 := 0, rpm_0 := 0, count_1 := 0, rpm_1 := 0,
    state_e0 := 0, state_e1 := 0, state_0 := 0, state_1 := 0,
    last_rpm_update_ms := 0, last_rpm_interval_ms := 0 }

/-- Whether a channel is compiled in (`HAS_TACH_x`). -/
def Config.enabled (cfg : Config) : Channel → Bool
  | .e0 => cfg.HAS_TACH_E0
  | .e1 => cfg.HAS_TACH_E1
  | .f0 => cfg.HAS_TACH_0
  | .f1 => cfg.HAS_TACH_1

/-- The pulses-per-revolution constant of a channel (`TACH_x_PPR`). -/
def Config.ppr (cfg : Config) : Channel → Nat
  | .e0 => cfg.TACH_E0_PPR
  | .e1 => cfg.TACH_E1_PPR
  | .f0 => cfg.TACH_0_PPR
  | .f1 => cfg.TACH_1_PPR

/-- The pulse counter of a channel (`count_x`). -/
def FanTachs.count (s : FanTachs) : Channel → Nat
  | .e0 => s.count_e0
  | .e1 => s.count_e1
  | .f0 => s.count_0
  | .f1 => s.count_1

/-- The stored RPM of a channel (`rpm_x`). -/
def FanTachs.rpm (s : FanTachs) : Channel → Nat
  | .e0 => s.rpm_e0
  | .e1 => s.rpm_e1
  | .f0 => s.rpm_0
  | .f1 => s.rpm_1

/-- The stored signal level of a channel in polled mode (`state_x`). -/
def FanTachs.level (s : FanTachs) : Channel → Nat
  | .e0 => s.state_e0
  | .e1 => s.state_e1
  | .f0 => s.state_0
  | .f1 => s.state_1

/-- Accessor `rpmFanE0()` of fantachs.h. -/
def rpmFanE0 (s : FanTachs) : Nat := s.rpm_e0

/-- Accessor `rpmFanE1()` of fantachs.h. -/
def rpmFanE1 (s : FanTachs) : Nat := s.rpm_e1

/-- Accessor `rpmFan0()` of fantachs.h. -/
def rpmFan0 (s : FanTachs) : Nat := s.rpm_0

/-- Accessor `rpmFan1()` of fantachs.h. -/
def rpmFan1 (s : FanTachs) : Nat := s.rpm_1

/-- The accessor of a channel. -/
def rpmFan (s : FanTachs) : Channel → Nat
  | .e0 => rpmFanE0 s
  | .e1 => rpmFanE1 s
  | .f0 => rpmFan0 s
  | .f1 => rpmFan1 s

/-- Every member holds a value of its C type: `uint16_t` counters and RPMs,
`uint8_t` levels, 32-bit `millis_t` time stamps. -/
def FanTachs.WF (s : FanTachs) : Prop :=
  (∀ ch, s.count ch < 65536) ∧ (∀ ch, s.rpm ch < 65536) ∧ (∀ ch, s.level ch < 256) ∧
  s.last_rpm_update_ms < 4294967296 ∧ s.last_rpm_interval_ms < 4294967296

/-- Increment `++x` of a `uint16_t`. -/
def incr16 (x : Nat) : Nat := (x + 1) % 65536

/-- Unsigned 32-bit subtraction `a - b` on `millis_t`. -/
def sub32 (a b : Nat) : Nat := (a + 4294967296 - b % 4294967296) % 4294967296

/-- Unsigned 32-bit multiplication. -/
def mul32 (a b : Nat) : Nat := (a * b) % 4294967296

/-- Unsigned division; the result is undefined when the divisor is zero. -/
def udiv (a b : Nat) : Option Nat := if b = 0 then none else some (a / b)

/-- Handler `FanTachs::isr_e0` (lines 145-147). -/
def isr_e0 (s : FanTachs) : FanTachs := { s with count_e0 := incr16 s.count_e0 }

/-- Handler `FanTachs::isr_e1` (lines 151-153). -/
def isr_e1 (s : FanTachs) : FanTachs := { s with count_e1 := incr16 s.count_e1 }

/-- Handler `FanTachs::isr_0` (lines 157-159). -/
def isr_0 (s : FanTachs) : FanTachs := { s with count_0 := incr16 s.count_0 }

/-- Handler `FanTachs::isr_1` (lines 163-165). -/
def isr_1 (s : FanTachs) : FanTachs := { s with count_1 := incr16 s.count_1 }

/-- The levels that the four `READ(TACH_x_PIN)` calls of one `updateCounts`
call observe. -/
structure Pins where
  e0 : Bool
  e1 : Bool
  f0 : Bool
  f1 : Bool
  deriving DecidableEq, Repr

/-- The level read on a channel's pin. -/
def Pins.read (p : Pins) : Channel → Bool
  | .e0 => p.e0
  | .e1 => p.e1
  | .f0 => p.f0
  | .f1 => p.f1

/-- Modelled from the spec: the `READ(pin)` macro of the GPIO layer is not in
the source files; the spec gives it as `readLevel(pin) -> bool`.  Assigned to
the `uint8_t pinstate` a level is 1 (high) or 0 (low). -/
def READ (v : Bool) : Nat := if v then 1 else 0

/-- The block of `updateCounts` for channel E0 (lines 174-178), after
`pinstate = READ(TACH_E0_PIN)`. -/
def poll_e0 (pinstate : Nat) (s : FanTachs) : FanTachs :=
  let s := if pinstate = 0 ∧ s.state_e0 ≠ 0 then { s with count_e0 := incr16 s.count_e0 } else s
  { s with state_e0 := pinstate }

/-- The block of `updateCounts` for channel E1 (lines 182-186). -/
def poll_e1 (pinstate : Nat) (s : FanTachs) : FanTachs :=
  let s := if pinstate = 0 ∧ s.state_e1 ≠ 0 then { s with count_e1 := incr16 s.count_e1 } else s
  { s with state_e1 := pinstate }

/-- The block of `updateCounts` for channel 0 (lines 190-194). -/
def poll_0 (pinstate : Nat) (s : FanTachs) : FanTachs :=
  let s := if pinstate = 0 ∧ s.state_0 ≠ 0 then { s with count_0 := incr16 s.count_0 } else s
  { s with state_0 := pinstate }

/-- The block of `updateCounts` for channel 1 (lines 198-202). -/
def poll_1 (pinstate : Nat) (s : FanTachs) : FanTachs :=
  let s := if pinstate = 0 ∧ s.state_1 ≠ 0 then { s with count_1 := incr16 s.count_1 } else s
  { s with state_1 := pinstate }

/-- Member `FanTachs::updateCounts` (lines 170-204), polled edge detection: the four
blocks in source order, each under its `#if HAS_TACH_x`. -/
def updateCounts (cfg : Config) (pins : Pins) (s : FanTachs) : FanTachs :=
  let s := if cfg.HAS_TACH_E0 then poll_e0 (READ pins.e0) s else s
  let s := if cfg.HAS_TACH_E1 then poll_e1 (READ pins.e1) s else s
  let s := if cfg.HAS_TACH_0 then poll_0 (READ pins.f0) s else s
  let s := if cfg.HAS_TACH_1 then poll_1 (READ pins.f1) s else s
  s

/-- The conversion of lines 238-247:
`(uint16_t)((uint32_t)tmp_count * 60 * 1000 / PPR / elapsed_ms)`. -/
def rpmOf (tmp_count ppr elapsed_ms : Nat) : Option Nat := do
  let prod := mul32 (mul32 (tmp_count % 4294967296) 60) 1000
  let perRev ← udiv prod ppr
  let q ← udiv perRev elapsed_ms
  pure (q % 65536)

/-- The elapsed time of line 210: `now - last_rpm_update_ms`. -/
def elapsedMs (now : Nat) (s : FanTachs) : Nat := sub32 now s.last_rpm_update_ms

/-- The guard of line 212. -/
def windowElapsed (cfg : Config) (now : Nat) (s : FanTachs) : Bool :=
  decide (elapsedMs now s > cfg.FANTACH_SAMPLE_WINDOW_MS)

/-- The body of the `if` of `updateRpm` (lines 214-250): move the window
start, capture and reset the counters, convert, record the interval. -/
def recompute (cfg : Config) (now elapsed_ms : Nat) (s : FanTachs) : Option FanTachs := do
  let s := { s with last_rpm_update_ms := now }
  -- critical section
  let tmp_count_e0 := s.count_e0
  let s := if cfg.HAS_TACH_E0 then { s with count_e0 := 0 } else s
  let tmp_count_e1 := s.count_e1
  let s := if cfg.HAS_TACH_E1 then { s with count_e1 := 0 } else s
  let tmp_count_0 := s.count_0
  let s := if cfg.HAS_TACH_0 then { s with count_0 := 0 } else s
  let tmp_count_1 := s.count_1
  let s := if cfg.HAS_TACH_1 then { s with count_1 := 0 } else s
  -- end of the critical section
  let s ← if cfg.HAS_TACH_E0 then
      (rpmOf tmp_count_e0 cfg.TACH_E0_PPR elapsed_ms).map (fun r => { s with rpm_e0 := r })
    else some s
  let s ← if cfg.HAS_TACH_E1 then
      (rpmOf tmp_count_e1 cfg.TACH_E1_PPR elapsed_ms).map (fun r => { s with rpm_e1 := r })
    else some s
  let s ← if cfg.HAS_TACH_0 then
      (rpmOf tmp_count_0 cfg.TACH_0_PPR elapsed_ms).map (fun r => { s with rpm_0 := r })
    else some s
  let s ← if cfg.HAS_TACH_1 then
      (rpmOf tmp_count_1 cfg.TACH_1_PPR elapsed_ms).map (fun r => { s with rpm_1 := r })
    else some s
  pure { s with last_rpm_interval_ms := elapsed_ms }

/-- Member `FanTachs::updateRpm` (lines 207-252); `now` is the value of `millis()`. -/
def updateRpm (cfg : Config) (now : Nat) (s : FanTachs) : Option FanTachs :=
  let elapsed_ms := elapsedMs now s
  if elapsed_ms > cfg.FANTACH_SAMPLE_WINDOW_MS then
    recompute cfg now elapsed_ms s
  else
    some s

/-- Every compiled-in channel has a pulses-per-revolution constant of at
least 1. -/
def Config.PprPos (cfg : Config) : Prop := ∀ ch, cfg.enabled ch = true → 1 ≤ cfg.ppr ch

/-- One edge-detection step: an interrupt handler of an enabled channel in
interrupt mode, or one `updateCounts` call in polled mode. -/
inductive EdgeStep (cfg : Config) : FanTachs → FanTachs → Prop where
  | isr_e0 (s : FanTachs) : cfg.FANTACH_INTERRUPT = true → cfg.HAS_TACH_E0 = true →
      EdgeStep cfg s (isr_e0 s)
  | isr_e1 (s : FanTachs) : cfg.FANTACH_INTERRUPT = true → cfg.HAS_TACH_E1 = true →
      EdgeStep cfg s (isr_e1 s)
  | isr_0 (s : FanTachs) : cfg.FANTACH_INTERRUPT = true → cfg.HAS_TACH_0 = true →
      EdgeStep cfg s (isr_0 s)
  | isr_1 (s : FanTachs) : cfg.FANTACH_INTERRUPT = true → cfg.HAS_TACH_1 = true →
      EdgeStep cfg s (isr_1 s)
  | updateCounts (s : FanTachs) (pins : Pins) : cfg.FANTACH_INTERRUPT = false →
      EdgeStep cfg s (updateCounts cfg pins s)

/-- The value the conversion stores when both divisors are non-zero. -/
def rpmVal (c ppr e : Nat) : Nat := mul32 (mul32 (c % 4294967296) 60) 1000 / ppr / e % 65536

/-! ## Sample builds and states -/

/-- A build with channel E0 only, two pulses per revolution, and a sample
window of 999 ms. -/
def cfgE0 : Config :=
  { FANTACH_INTERRUPT := true, HAS_TACH_E0 := true, HAS_TACH_E1 := false,
    HAS_TACH_0 := false, HAS_TACH_1 := false,
    TACH_E0_PPR := 2, TACH_E1_PPR := 0, TACH_0_PPR := 0, TACH_1_PPR := 0,
    FANTACH_SAMPLE_WINDOW_MS := 999 }

/-- A build with channel E0 only, one pulse per revolution, and a sample
window of 1000 ms. -/
def cfgFast : Config :=
  { cfgE0 with TACH_E0_PPR := 1, FANTACH_SAMPLE_WINDOW_MS := 1000 }

/-- A state in the middle of a window: counts pending, RPMs from the window
before. -/
def midWindow : FanTachs :=
  { initial with count_e0 := 40, rpm_e0 := 3000, state_e0 := 1,
                 last_rpm_update_ms := 5000, last_rpm_interval_ms := 1003 }

/-- A polled build with channels E0 and 0, two pulses per revolution each. -/
def cfgPolled : Config :=
  { FANTACH_INTERRUPT := false, HAS_TACH_E0 := true, HAS_TACH_E1 := false,
    HAS_TACH_0 := true, HAS_TACH_1 := false,
    TACH_E0_PPR := 2, TACH_E1_PPR := 0, TACH_0_PPR := 2, TACH_1_PPR := 0,
    FANTACH_SAMPLE_WINDOW_MS := 1000 }

/-- An interrupt-mode state whose E0 counter holds the largest `uint16_t`. -/
def fullCount : FanTachs := { initial with count_e0 := 65535 }

/-- The conversion as the spec's open question recombines it, a single
truncating division `count * 60000 / (ppr * elapsed_ms)` in the same 32-bit
unsigned arithmetic, stored in the same `uint16_t`. -/
def rpmSingle (tmp_count ppr elapsed_ms : Nat) : Option Nat := do
  let prod := mul32 (mul32 (tmp_count % 4294967296) 60) 1000
  let q ← udiv prod (mul32 ppr elapsed_ms)
  pure (q % 65536)

/-- What the serial sink receives: a label with a value, or an end of line. -/
inductive SerialOut where
  | pair (label : String) (value : Nat)
  | eol
  deriving DecidableEq, Repr

/-- Modelled from the spec: the `SERIAL_PROTOCOLPAIR(label, value)` macro of
the serial layer is not in the source files; the spec gives it as
`write(label: string, value: integer)` on the text output sink. -/
def SERIAL_PROTOCOLPAIR (label : String) (value : Nat) (out : List SerialOut) :
    List SerialOut :=
  out ++ [SerialOut.pair label value]

/-- Modelled from the spec: the `SERIAL_EOL()` macro of the serial layer is
not in the source files; the spec gives it as `endLine()` on the text output
sink. -/
def SERIAL_EOL (out : List SerialOut) : List SerialOut := out ++ [SerialOut.eol]

/-- Member `FanTachs::printTachRpms` (lines 254-269): the class members are
only read; `out` is what the sink has received so far. -/
def printTachRpms (cfg : Config) (s : FanTachs) (out : List SerialOut) :
    FanTachs × List SerialOut :=
  let out := if cfg.HAS_TACH_E0 then SERIAL_PROTOCOLPAIR " E0: " s.rpm_e0 out else out
  let out := if cfg.HAS_TACH_E1 then SERIAL_PROTOCOLPAIR " E1: " s.rpm_e1 out else out
  let out := if cfg.HAS_TACH_0 then SERIAL_PROTOCOLPAIR " 0: " s.rpm_0 out else out
  let out := if cfg.HAS_TACH_1 then SERIAL_PROTOCOLPAIR " 1: " s.rpm_1 out else out
  (s, SERIAL_EOL out)

/-- The label `printTachRpms` writes for a channel. -/
def Channel.label : Channel → String
  | .e0 => " E0: "
  | .e1 => " E1: "
  | .f0 => " 0: "
  | .f1 => " 1: "

/-- The channels in the order of the source: E0, E1, 0, 1. -/
def Channel.all : List Channel := [.e0, .e1, .f0, .f1]

/-- The ATmega2560 redefinition of `digitalPinToInterrupt(p)` (line 57).  The
constant `NOT_AN_INTERRUPT` comes from the Arduino core, outside the source
files, and is a parameter. -/
def digitalPinToInterrupt (NOT_AN_INTERRUPT : Int) (p : Int) : Int :=
  if p = 2 then 0
  else if p = 3 then 1
  else if p ≥ 18 ∧ p ≤ 21 then 23 - p
  else if p ≥ 79 ∧ p ≤ 80 then p - 73
  else NOT_AN_INTERRUPT

/-- The Arduino pins of the mapping table in the comment of lines 40-55. -/
def interruptPins : List Int := [21, 20, 19, 18, 2, 3, 79, 80]

/-- The Arduino interrupt number that the table of lines 40-55 documents for
each of its pins (column "Arduino INT #"), as pairs of pin and number. -/
def interruptTable : List (Int × Int) :=
  [(21, 2), (20, 3), (19, 4), (18, 5), (2, 0), (3, 1), (79, 6), (80, 7)]

/-! ## Polled sampling of a waveform -/

/-- The number of adjacent high-then-low pairs in `prev :: vs`. -/
def fallsFrom (prev : Bool) : List Bool → Nat
  | [] => 0
  | v :: vs => (if prev = true ∧ v = false then 1 else 0) + fallsFrom v vs

/-- The reference model of the spec: the number of falling edges of a
sequence of levels, that is, of adjacent high-then-low pairs. -/
def fallingEdges : List Bool → Nat
  | [] => 0
  | v :: vs => fallsFrom v vs

/-- Successive `updateCounts` calls, one per element of `polls`, in order. -/
def pollAll (cfg : Config) : List Pins → FanTachs → FanTachs
  | [], s => s
  | pins :: polls, s => pollAll cfg polls (updateCounts cfg pins s)

/-! ## Interleaving of edge detection with the phases of `updateRpm` -/

/-- The interrupt handler of a channel. -/
def isr : Channel → FanTachs → FanTachs
  | .e0 => isr_e0
  | .e1 => isr_e1
  | .f0 => isr_0
  | .f1 => isr_1

/-- The locals `tmp_count_x` of `updateRpm` (lines 220-232). -/
structure Tmp where
  tmp_count_e0 : Nat
  tmp_count_e1 : Nat
  tmp_count_0 : Nat
  tmp_count_1 : Nat
  deriving DecidableEq, Repr

/-- The captured count of a channel. -/
def Tmp.get (t : Tmp) : Channel → Nat
  | .e0 => t.tmp_count_e0
  | .e1 => t.tmp_count_e1
  | .f0 => t.tmp_count_0
  | .f1 => t.tmp_count_1

/-- Lines 209-214 of `updateRpm`: read the clock, test the guard and, when it
holds, move the window start.  Returns `elapsed_ms` when the guard holds. -/
def rpmEnter (cfg : Config) (now : Nat) (s : FanTachs) : FanTachs × Option Nat :=
  let elapsed_ms := elapsedMs now s
  if elapsed_ms > cfg.FANTACH_SAMPLE_WINDOW_MS then
    ({ s with last_rpm_update_ms := now }, some elapsed_ms)
  else
    (s, none)

/-- Lines 218-235 of `updateRpm`: the critical section, run with interrupts
disabled, which captures and resets the counters. -/
def criticalSection (cfg : Config) (s : FanTachs) : FanTachs × Tmp :=
  let tmp_count_e0 := s.count_e0
  let s := if cfg.HAS_TACH_E0 then { s with count_e0 := 0 } else s
  let tmp_count_e1 := s.count_e1
  let s := if cfg.HAS_TACH_E1 then { s with count_e1 := 0 } else s
  let tmp_count_0 := s.count_0
  let s := if cfg.HAS_TACH_0 then { s with count_0 := 0 } else s
  let tmp_count_1 := s.count_1
  let s := if cfg.HAS_TACH_1 then { s with count_1 := 0 } else s
  (s, { tmp_count_e0 := tmp_count_e0, tmp_count_e1 := tmp_count_e1,
        tmp_count_0 := tmp_count_0, tmp_count_1 := tmp_count_1 })

/-- Lines 237-250 of `updateRpm`: the conversions, from the captured counts,
and the record of the interval. -/
def rpmConvert (cfg : Config) (elapsed_ms : Nat) (tmp : Tmp) (s : FanTachs) :
    Option FanTachs := do
  let s ← if cfg.HAS_TACH_E0 then
      (rpmOf tmp.tmp_count_e0 cfg.TACH_E0_PPR elapsed_ms).map (fun r => { s with rpm_e0 := r })
    else some s
  let s ← if cfg.HAS_TACH_E1 then
      (rpmOf tmp.tmp_count_e1 cfg.TACH_E1_PPR elapsed_ms).map (fun r => { s with rpm_e1 := r })
    else some s
  let s ← if cfg.HAS_TACH_0 then
      (rpmOf tmp.tmp_count_0 cfg.TACH_0_PPR elapsed_ms).map (fun r => { s with rpm_0 := r })
    else some s
  let s ← if cfg.HAS_TACH_1 then
      (rpmOf tmp.tmp_count_1 cfg.TACH_1_PPR elapsed_ms).map (fun r => { s with rpm_1 := r })
    else some s
  pure { s with last_rpm_interval_ms := elapsed_ms }

/-- Where the main context stands inside `updateRpm`. -/
inductive Phase where
  /-- Outside `updateRpm`. -/
  | idle
  /-- The guard held and the window start moved; the critical section is next. -/
  | entered (elapsed_ms : Nat)
  /-- The critical section is over; the conversions are next. -/
  | captured (elapsed_ms : Nat) (tmp : Tmp)
  deriving DecidableEq, Repr

/-- The class members together with the position of the main context. -/
structure Machine where
  mem : FanTachs
  phase : Phase
  deriving DecidableEq, Repr

/-- The atomic steps of an execution: an interrupt handler, an `updateCounts`
call (made from the temperature interrupt), and the three parts of an
`updateRpm` call, between which interrupts are enabled. -/
inductive Event where
  | isr (ch : Channel)
  | poll (pins : Pins)
  | rpmEnter (now : Nat)
  | rpmCritical
  | rpmFinish
  deriving DecidableEq, Repr

/-- One atomic step; `none` when the event cannot happen in this build or at
this position, or when a conversion divides by zero. -/
def Machine.step (cfg : Config) (ev : Event) (m : Machine) : Option Machine :=
  match ev, m.phase with
  | .isr ch, _ =>
    if cfg.FANTACH_INTERRUPT = true ∧ cfg.enabled ch = true then
      some { m with mem := isr ch m.mem }
    else none
  | .poll pins, _ =>
    if cfg.FANTACH_INTERRUPT = false then
      some { m with mem := updateCounts cfg pins m.mem }
    else none
  | .rpmEnter now, .idle =>
    match rpmEnter cfg now m.mem with
    | (s, some elapsed_ms) => some { mem := s, phase := .entered elapsed_ms }
    | (s, none) => some { mem := s, phase := .idle }
  | .rpmCritical, .entered elapsed_ms =>
    let r := criticalSection cfg m.mem
    some { mem := r.1, phase := .captured elapsed_ms r.2 }
  | .rpmFinish, .captured elapsed_ms tmp =>
    (rpmConvert cfg elapsed_ms tmp m.mem).map (fun s => { mem := s, phase := .idle })
  | _, _ => none

/-- The execution of a sequence of atomic steps. -/
def Machine.run (cfg : Config) : List Event → Machine → Option Machine
  | [], m => some m
  | ev :: evs, m => (Machine.step cfg ev m).bind (Machine.run cfg evs)

/-- The count a step captures for a channel: the `tmp_count_x` of the critical
section, for a compiled-in channel. -/
def capturedAt (cfg : Config) (ch : Channel) (ev : Event) (m : Machine) : Nat :=
  match ev, m.phase with
  | .rpmCritical, .entered _ =>
    if cfg.enabled ch = true then (criticalSection cfg m.mem).2.get ch else 0
  | _, _ => 0

/-- The number of `++count_x` a step executes for a channel. -/
def incrementsAt (cfg : Config) (ch : Channel) (ev : Event) (m : Machine) : Nat :=
  match ev with
  | .isr c => if c = ch then 1 else 0
  | .poll pins =>
    if cfg.enabled ch = true ∧ READ (pins.read ch) = 0 ∧ m.mem.level ch ≠ 0 then 1 else 0
  | _ => 0

/-- The sum of the counts captured for a channel along an execution. -/
def capturedSum (cfg : Config) (ch : Channel) : List Event → Machine → Nat
  | [], _ => 0
  | ev :: evs, m =>
    capturedAt cfg ch ev m +
      match Machine.step cfg ev m with
      | some m' => capturedSum cfg ch evs m'
      | none => 0

/-- The number of increments of a channel's counter along an execution. -/
def incrementsSum (cfg : Config) (ch : Channel) : List Event → Machine → Nat
  | [], _ => 0
  | ev :: evs, m =>
    incrementsAt cfg ch ev m +
      match Machine.step cfg ev m with
      | some m' => incrementsSum cfg ch evs m'
      | none => 0

/-- No counter reaches 2^16 along the execution: whenever a step increments
the channel's counter, the counter is below 65535 before the step. -/
def NoWrap (cfg : Config) (ch : Channel) : List Event → Machine → Bool
  | [], _ => true
  | ev :: evs, m =>
    (decide (incrementsAt cfg ch ev m = 0) || decide (m.mem.count ch < 65535)) &&
      match Machine.step cfg ev m with
      | some m' => NoWrap cfg ch evs m'
      | none => true

/-- An execution in which a pulse arrives at each boundary of the critical
section: `updateRpm` enters at 6003 ms, a pulse, the critical section, a
pulse, the conversions, a pulse. -/
def boundaryTrace : List Event :=
  [.isr .e0, .rpmEnter 6003, .isr .e0, .rpmCritical, .isr .e0, .rpmFinish, .isr .e0]

/-- A fast waveform, one falling edge every two samples. -/
def fastWave : List Bool := [true, false, true, false, true, false, true, false]

/-- Sample positions 0, 1, 4 and 6 into a waveform of eight levels. -/
def coarsePositions : List (Fin fastWave.length) :=
  [⟨0, by decide⟩, ⟨1, by decide⟩, ⟨4, by decide⟩, ⟨6, by decide⟩]

/-- The polls of channel E0 that see the levels at `coarsePositions`. -/
def coarsePolls : List Pins :=
  [⟨true, false, false, false⟩, ⟨false, false, false, false⟩,
   ⟨true, false, false, false⟩, ⟨true, false, false, false⟩]

/-! ## What a build declares for a channel -/

/-- A polled-mode state at a falling edge with the E0 counter at the largest
`uint16_t`: stored level high. -/
def fullCountHigh : FanTachs := { initial with count_e0 := 65535, state_e0 := 1 }

/-! ## Helper lemmas -/

theorem recompute_some (cfg : Config) (now e : Nat) (s s' : FanTachs)
    (h : recompute cfg now e s = some s') :
    s'.last_rpm_update_ms = now ∧ s'.last_rpm_interval_ms = e ∧
      (∀ ch, s'.count ch = if cfg.enabled ch = true then 0 else s.count ch) ∧
      (∀ ch, s'.level ch = s.level ch) ∧
      (∀ ch, cfg.enabled ch = true → rpmOf (s.count ch) (cfg.ppr ch) e = some (s'.rpm ch)) ∧
      (∀ ch, cfg.enabled ch = false → s'.rpm ch = s.rpm ch) := by
  rcases cfg with ⟨i, a, b, c, d, pa, pb, pc, pd, w⟩
  cases a <;> cases b <;> cases c <;> cases d <;>
    simp only [recompute, Option.bind_eq_bind, Option.pure_def, Bool.false_eq_true, if_false,
      if_true, Option.some_bind, Option.bind_eq_some, Option.map_eq_some', Option.some.injEq] at h <;>
    (try obtain ⟨_, ⟨r0, hr0, rfl⟩, h⟩ := h) <;>
    (try obtain ⟨_, ⟨r1, hr1, rfl⟩, h⟩ := h) <;>
    (try obtain ⟨_, ⟨r2, hr2, rfl⟩, h⟩ := h) <;>
    (try obtain ⟨_, ⟨r3, hr3, rfl⟩, h⟩ := h) <;>
    (try subst h) <;>
    refine ⟨rfl, rfl, ?_, ?_, ?_, ?_⟩ <;> intro ch <;> cases ch <;>
    simp_all [FanTachs.count, FanTachs.rpm, FanTachs.level, Config.enabled, Config.ppr]

theorem recompute_last_update (cfg : Config) (now e : Nat) (s s' : FanTachs)
    (h : recompute cfg now e s = some s') : s'.last_rpm_update_ms = now :=
  (recompute_some cfg now e s s' h).1

theorem updateRpm_disabled (cfg : Config) (now : Nat) (s s' : FanTachs)
    (h : updateRpm cfg now s = some s') (ch : Channel) (hd : cfg.enabled ch = false) :
    s'.count ch = s.count ch ∧ s'.rpm ch = s.rpm ch := by
  unfold updateRpm at h
  simp only at h
  split_ifs at h with hw
  · obtain ⟨-, -, hc, -, -, hr⟩ := recompute_some cfg now _ s s' h
    refine ⟨?_, hr ch hd⟩
    rw [hc ch, hd]
    simp
  · cases h
    exact ⟨rfl, rfl⟩

theorem poll_e0_eq (v : Nat) (s : FanTachs) :
    poll_e0 v s = { s with
      count_e0 := if v = 0 ∧ s.state_e0 ≠ 0 then incr16 s.count_e0 else s.count_e0,
      state_e0 := v } := by
  unfold poll_e0
  split_ifs <;> rfl

theorem poll_e1_eq (v : Nat) (s : FanTachs) :
    poll_e1 v s = { s with
      count_e1 := if v = 0 ∧ s.state_e1 ≠ 0 then incr16 s.count_e1 else s.count_e1,
      state_e1 := v } := by
  unfold poll_e1
  split_ifs <;> rfl

theorem poll_0_eq (v : Nat) (s : FanTachs) :
    poll_0 v s = { s with
      count_0 := if v = 0 ∧ s.state_0 ≠ 0 then incr16 s.count_0 else s.count_0,
      state_0 := v } := by
  unfold poll_0
  split_ifs <;> rfl

theorem poll_1_eq (v : Nat) (s : FanTachs) :
    poll_1 v s = { s with
      count_1 := if v = 0 ∧ s.state_1 ≠ 0 then incr16 s.count_1 else s.count_1,
      state_1 := v } := by
  unfold poll_1
  split_ifs <;> rfl

theorem READ_eq_zero (v : Bool) : READ v = 0 ↔ v = false := by
  cases v <;> simp [READ]

theorem updateCounts_count (cfg : Config) (pins : Pins) (s : FanTachs) (ch : Channel) :
    (updateCounts cfg pins s).count ch =
      if cfg.enabled ch = true ∧ pins.read ch = false ∧ s.level ch ≠ 0 then incr16 (s.count ch)
      else s.count ch := by
  rcases cfg with ⟨i, a, b, c, d, pa, pb, pc, pd, w⟩
  cases ch <;> cases a <;> cases b <;> cases c <;> cases d <;>
    simp [updateCounts, poll_e0_eq, poll_e1_eq, poll_0_eq, poll_1_eq, READ_eq_zero,
      FanTachs.count, FanTachs.level, Pins.read, Config.enabled]

theorem updateCounts_level (cfg : Config) (pins : Pins) (s : FanTachs) (ch : Channel) :
    (updateCounts cfg pins s).level ch =
      if cfg.enabled ch = true then READ (pins.read ch) else s.level ch := by
  rcases cfg with ⟨i, a, b, c, d, pa, pb, pc, pd, w⟩
  cases ch <;> cases a <;> cases b <;> cases c <;> cases d <;>
    simp [updateCounts, poll_e0_eq, poll_e1_eq, poll_0_eq, poll_1_eq,
      FanTachs.level, Pins.read, Config.enabled]

theorem updateCounts_frame (cfg : Config) (pins : Pins) (s : FanTachs) :
    (∀ ch, (updateCounts cfg pins s).rpm ch = s.rpm ch) ∧
    (updateCounts cfg pins s).last_rpm_update_ms = s.last_rpm_update_ms ∧
    (updateCounts cfg pins s).last_rpm_interval_ms = s.last_rpm_interval_ms := by
  rcases cfg with ⟨i, a, b, c, d, pa, pb, pc, pd, w⟩
  refine ⟨fun ch => ?_, ?_, ?_⟩
  · cases ch <;> cases a <;> cases b <;> cases c <;> cases d <;>
      simp [updateCounts, poll_e0_eq, poll_e1_eq, poll_0_eq, poll_1_eq, FanTachs.rpm]
  · cases a <;> cases b <;> cases c <;> cases d <;>
      simp [updateCounts, poll_e0_eq, poll_e1_eq, poll_0_eq, poll_1_eq]
  · cases a <;> cases b <;> cases c <;> cases d <;>
      simp [updateCounts, poll_e0_eq, poll_e1_eq, poll_0_eq, poll_1_eq]

theorem incr16_ge (x : Nat) (h : x < 65535) : x ≤ incr16 x := by
  unfold incr16
  omega

theorem edgeStep_count_cases (cfg : Config) (s s' : FanTachs) (h : EdgeStep cfg s s')
    (ch : Channel) :
    s'.count ch = s.count ch ∨ (cfg.enabled ch = true ∧ s'.count ch = incr16 (s.count ch)) := by
  cases h with
  | isr_e0 hi he => cases ch <;> simp [isr_e0, FanTachs.count, Config.enabled, he]
  | isr_e1 hi he => cases ch <;> simp [isr_e1, FanTachs.count, Config.enabled, he]
  | isr_0 hi he => cases ch <;> simp [isr_0, FanTachs.count, Config.enabled, he]
  | isr_1 hi he => cases ch <;> simp [isr_1, FanTachs.count, Config.enabled, he]
  | updateCounts pins hi =>
    rw [updateCounts_count]
    split_ifs with hc
    · exact Or.inr ⟨hc.1, rfl⟩
    · exact Or.inl rfl

theorem edgeStep_rpm (cfg : Config) (s s' : FanTachs) (h : EdgeStep cfg s s')
    (ch : Channel) : s'.rpm ch = s.rpm ch := by
  cases h with
  | isr_e0 hi he => cases ch <;> rfl
  | isr_e1 hi he => cases ch <;> rfl
  | isr_0 hi he => cases ch <;> rfl
  | isr_1 hi he => cases ch <;> rfl
  | updateCounts pins hi => exact (updateCounts_frame cfg pins s).1 ch

theorem rpmOf_eq (c ppr e : Nat) (hp : 1 ≤ ppr) (he : 1 ≤ e) :
    rpmOf c ppr e = some (rpmVal c ppr e) := by
  have h1 : ppr ≠ 0 := by omega
  have h2 : e ≠ 0 := by omega
  simp [rpmOf, udiv, h1, h2, rpmVal]

theorem rpmVal_of_lt (c ppr e : Nat) (hc : c < 65536) :
    rpmVal c ppr e = c * 60000 / ppr / e % 65536 := by
  have h : mul32 (mul32 (c % 4294967296) 60) 1000 = c * 60000 := by
    unfold mul32
    omega
  rw [rpmVal, h]

theorem recompute_spec (cfg : Config) (now e : Nat) (s : FanTachs)
    (hp : cfg.PprPos) (he : 1 ≤ e) :
    ∃ s', recompute cfg now e s = some s' ∧
      s'.last_rpm_update_ms = now ∧ s'.last_rpm_interval_ms = e ∧
      (∀ ch, s'.count ch = if cfg.enabled ch = true then 0 else s.count ch) ∧
      (∀ ch, s'.rpm ch =
        if cfg.enabled ch = true then rpmVal (s.count ch) (cfg.ppr ch) e else s.rpm ch) ∧
      (∀ ch, s'.level ch = s.level ch) := by
  have h0 := hp .e0
  have h1 := hp .e1
  have h2 := hp .f0
  have h3 := hp .f1
  rcases cfg with ⟨i, a, b, c, d, pa, pb, pc, pd, w⟩
  simp only [Config.enabled, Config.ppr] at h0 h1 h2 h3
  cases a <;> cases b <;> cases c <;> cases d <;>
    simp_all [recompute, rpmOf_eq, Config.enabled, Config.ppr] <;>
    (refine ⟨?_, ?_, ?_⟩ <;> intro ch <;> cases ch <;>
      simp [FanTachs.count, FanTachs.rpm, FanTachs.level])

theorem windowElapsed_iff (cfg : Config) (now : Nat) (s : FanTachs) :
    windowElapsed cfg now s = true ↔ cfg.FANTACH_SAMPLE_WINDOW_MS < elapsedMs now s := by
  simp [windowElapsed]

theorem updateRpm_of_window (cfg : Config) (now : Nat) (s : FanTachs)
    (h : cfg.FANTACH_SAMPLE_WINDOW_MS < elapsedMs now s) :
    updateRpm cfg now s = recompute cfg now (elapsedMs now s) s := by
  simp [updateRpm, h]

theorem updateRpm_of_not_window (cfg : Config) (now : Nat) (s : FanTachs)
    (h : elapsedMs now s ≤ cfg.FANTACH_SAMPLE_WINDOW_MS) :
    updateRpm cfg now s = some s := by
  have h' : ¬ cfg.FANTACH_SAMPLE_WINDOW_MS < elapsedMs now s := by omega
  simp [updateRpm, h']

theorem updateRpm_spec (cfg : Config) (now : Nat) (s : FanTachs)
    (hp : cfg.PprPos) (h : cfg.FANTACH_SAMPLE_WINDOW_MS < elapsedMs now s) :
    ∃ s', updateRpm cfg now s = some s' ∧
      s'.last_rpm_update_ms = now ∧ s'.last_rpm_interval_ms = elapsedMs now s ∧
      (∀ ch, s'.count ch = if cfg.enabled ch = true then 0 else s.count ch) ∧
      (∀ ch, s'.rpm ch =
        if cfg.enabled ch = true then rpmVal (s.count ch) (cfg.ppr ch) (elapsedMs now s)
        else s.rpm ch) ∧
      (∀ ch, s'.level ch = s.level ch) := by
  rw [updateRpm_of_window cfg now s h]
  exact recompute_spec cfg now (elapsedMs now s) s hp (by omega)

theorem rpmFan_eq (s : FanTachs) (ch : Channel) : rpmFan s ch = s.rpm ch := by
  cases ch <;> rfl

/-! ## The RPM conversion (C1) -/

theorem cfgE0_pprPos : cfgE0.PprPos := by
  intro ch h
  cases ch <;> simp_all [cfgE0, Config.enabled, Config.ppr]

theorem cfgFast_pprPos : cfgFast.PprPos := by
  intro ch h
  cases ch <;> simp_all [cfgFast, cfgE0, Config.enabled, Config.ppr]

/-- Claim C1, as stated, fails: the conversion result is stored in a
`uint16_t`.  With one pulse per revolution, 2000 pulses captured and 1001 ms
elapsed the quotient is 119880, and the stored RPM is 54344. -/
theorem updateRpm_rpm_unbounded_fails :
    ¬ (∀ (cfg : Config) (now : Nat) (s : FanTachs) (ch : Channel),
        cfg.PprPos → cfg.enabled ch = true → s.count ch < 65536 →
        windowElapsed cfg now s = true →
        ∃ s', updateRpm cfg now s = some s' ∧
          rpmFan s' ch = s.count ch * 60000 / cfg.ppr ch / elapsedMs now s) := by
  intro h
  obtain ⟨s', hs, hr⟩ := h cfgFast 1001 { initial with count_e0 := 2000 } .e0
    cfgFast_pprPos rfl (by decide) (by decide)
  have hs' : updateRpm cfgFast 1001 { initial with count_e0 := 2000 } =
      some { initial with rpm_e0 := 54344, last_rpm_update_ms := 1001,
                          last_rpm_interval_ms := 1001 } := by decide
  rw [hs'] at hs
  cases hs
  revert hr
  decide

/-- Claim C1 (amended): for a compiled-in channel with PPR >= 1, a 16-bit
captured count N and an elapsed time T for which `updateRpm` recomputes, if
the quotient N*60000/PPR/T (left to right, truncating) is at most 65535 then
the RPM stored for the channel, and returned by its accessor, is that
quotient. -/
theorem updateRpm_rpm_of_fits (cfg : Config) (now : Nat) (s : FanTachs) (ch : Channel)
    (hp : cfg.PprPos) (hen : cfg.enabled ch = true) (hc : s.count ch < 65536)
    (hw : windowElapsed cfg now s = true)
    (hq : s.count ch * 60000 / cfg.ppr ch / elapsedMs now s ≤ 65535) :
    ∃ s', updateRpm cfg now s = some s' ∧
      s'.rpm ch = s.count ch * 60000 / cfg.ppr ch / elapsedMs now s ∧
      rpmFan s' ch = s.count ch * 60000 / cfg.ppr ch / elapsedMs now s := by
  obtain ⟨s', hs, -, -, -, hr, -⟩ :=
    updateRpm_spec cfg now s hp ((windowElapsed_iff cfg now s).1 hw)
  refine ⟨s', hs, ?_, ?_⟩
  · rw [hr ch, if_pos hen, rpmVal_of_lt _ _ _ hc]
    exact Nat.mod_eq_of_lt (by omega)
  · rw [rpmFan_eq, hr ch, if_pos hen, rpmVal_of_lt _ _ _ hc]
    exact Nat.mod_eq_of_lt (by omega)

/-- The scenario of claim C1: PPR = 2, 1000 ms elapsed, 40 pulses captured
give 1200 RPM. -/
theorem updateRpm_rpm_of_fits_witness :
    ∃ s', updateRpm cfgE0 1000 { initial with count_e0 := 40 } = some s' ∧
      s'.rpm .e0 = 1200 ∧ rpmFan s' .e0 = 1200 :=
  updateRpm_rpm_of_fits cfgE0 1000 { initial with count_e0 := 40 } .e0
    cfgE0_pprPos rfl (by decide) (by decide) (by decide)

/-! ## The sample-window gate (C2, C3, C4) -/

/-- Claim C2: when the elapsed time `now - last_rpm_update_ms` (unsigned) is
strictly below the configured minimum sample window, `updateRpm` returns the
state it was given: no count, RPM, stored level or time stamp changes. -/
theorem updateRpm_below_window_unchanged (cfg : Config) (now : Nat) (s : FanTachs)
    (h : elapsedMs now s < cfg.FANTACH_SAMPLE_WINDOW_MS) :
    updateRpm cfg now s = some s :=
  updateRpm_of_not_window cfg now s (by omega)

/-- Claim C2 at 998 ms into a 999 ms window. -/
theorem updateRpm_below_window_unchanged_witness :
    elapsedMs 5998 midWindow < cfgE0.FANTACH_SAMPLE_WINDOW_MS ∧
      updateRpm cfgE0 5998 midWindow = some midWindow :=
  ⟨by decide, updateRpm_below_window_unchanged cfgE0 5998 midWindow (by decide)⟩

/-- Claim C3, as stated, fails at the boundary: with a window of 1000 ms and
exactly 1000 ms elapsed the guard of `updateRpm` is false, the state is
returned as it was, the pending count of 40 is neither captured nor reset and
the window start does not move. -/
theorem updateRpm_at_window_no_recompute :
    cfgFast.FANTACH_SAMPLE_WINDOW_MS ≤ elapsedMs 6000 midWindow ∧
      windowElapsed cfgFast 6000 midWindow = false ∧
      updateRpm cfgFast 6000 midWindow = some midWindow ∧
      midWindow.count .e0 = 40 ∧ midWindow.last_rpm_update_ms ≠ 6000 := by
  decide

/-- Claim C3 (amended): `updateRpm` performs the snapshot, reset and RPM
recomputation if and only if the elapsed time is strictly greater than
FANTACH_SAMPLE_WINDOW_MS.  When it is, the result is that of the body of the
`if`; when it is not (elapsed equal to the window included) the state is
returned as it was; and the state is returned as it was only in that case. -/
theorem updateRpm_recomputes_iff_gt (cfg : Config) (now : Nat) (s : FanTachs) :
    (windowElapsed cfg now s = true ↔ cfg.FANTACH_SAMPLE_WINDOW_MS < elapsedMs now s) ∧
    (cfg.FANTACH_SAMPLE_WINDOW_MS < elapsedMs now s →
      updateRpm cfg now s = recompute cfg now (elapsedMs now s) s) ∧
    (updateRpm cfg now s = some s ↔ elapsedMs now s ≤ cfg.FANTACH_SAMPLE_WINDOW_MS) := by
  refine ⟨windowElapsed_iff cfg now s, updateRpm_of_window cfg now s, ?_,
    updateRpm_of_not_window cfg now s⟩
  intro hs
  by_contra hcon
  have hlt : cfg.FANTACH_SAMPLE_WINDOW_MS < elapsedMs now s := by omega
  rw [updateRpm_of_window cfg now s hlt] at hs
  have hu := recompute_last_update cfg now (elapsedMs now s) s s hs
  have hne : elapsedMs now s ≠ 0 := by omega
  apply hne
  rw [elapsedMs, sub32, ← hu]
  omega

/-- Claim C3 (amended) one millisecond past a 1000 ms window: the guard holds,
the body of the `if` runs and the state changes. -/
theorem updateRpm_recomputes_iff_gt_witness :
    windowElapsed cfgFast 6001 midWindow = true ∧
      updateRpm cfgFast 6001 midWindow = recompute cfgFast 6001 1001 midWindow ∧
      ¬ updateRpm cfgFast 6001 midWindow = some midWindow :=
  have h := updateRpm_recomputes_iff_gt cfgFast 6001 midWindow
  ⟨h.1.2 (by decide), h.2.1 (by decide), fun hs => absurd (h.2.2.1 hs) (by decide)⟩

/-- Claim C4: if the 32-bit millisecond clock reads `(L + d) mod 2^32`, where
`L` is the stored window start and `d < 2^32` the true duration, then the
elapsed time `updateRpm` computes is `d`, also when the clock has wrapped and
reads less than `L`. -/
theorem elapsedMs_wraparound (s : FanTachs) (now d : Nat) (hd : d < 4294967296)
    (hnow : now = (s.last_rpm_update_ms + d) % 4294967296) :
    elapsedMs now s = d := by
  subst hnow
  unfold elapsedMs sub32
  omega

/-- Claim C4 across the wrap: the window started 296 ms before the clock
wrapped and the clock now reads 5. -/
theorem elapsedMs_wraparound_witness :
    (5 : Nat) < 4294967000 ∧
      elapsedMs 5 { initial with last_rpm_update_ms := 4294967000 } = 301 :=
  ⟨by decide, elapsedMs_wraparound { initial with last_rpm_update_ms := 4294967000 } 5 301
    (by decide) (by decide)⟩

/-! ## Snapshot, reset and conversion (C5, C6) -/

/-- Claim C5: when `updateRpm` recomputes at clock value `now` with elapsed
time `e`, the resulting state has the count of every compiled-in channel equal
to 0, `last_rpm_update_ms = now` and `last_rpm_interval_ms = e`, and the RPM of
every compiled-in channel is the conversion of the value its counter held in
the state before the call. -/
theorem updateRpm_snapshot_reset (cfg : Config) (now : Nat) (s : FanTachs)
    (hp : cfg.PprPos) (hw : windowElapsed cfg now s = true) :
    ∃ s', updateRpm cfg now s = some s' ∧
      (∀ ch, cfg.enabled ch = true → s'.count ch = 0) ∧
      s'.last_rpm_update_ms = now ∧
      s'.last_rpm_interval_ms = elapsedMs now s ∧
      (∀ ch, cfg.enabled ch = true →
        rpmOf (s.count ch) (cfg.ppr ch) (elapsedMs now s) = some (s'.rpm ch)) := by
  have hlt := (windowElapsed_iff cfg now s).1 hw
  obtain ⟨s', hs, hu, hi, hc, hr, -⟩ := updateRpm_spec cfg now s hp hlt
  refine ⟨s', hs, ?_, hu, hi, ?_⟩
  · intro ch hen
    rw [hc ch, if_pos hen]
  · intro ch hen
    rw [hr ch, if_pos hen]
    exact rpmOf_eq _ _ _ (hp ch hen) (by omega)

/-- Claim C5 on a window of 1003 ms with 40 pulses pending. -/
theorem updateRpm_snapshot_reset_witness :
    ∃ s', updateRpm cfgE0 6003 midWindow = some s' ∧
      (∀ ch, cfgE0.enabled ch = true → s'.count ch = 0) ∧
      s'.last_rpm_update_ms = 6003 ∧
      s'.last_rpm_interval_ms = 1003 ∧
      (∀ ch, cfgE0.enabled ch = true →
        rpmOf (midWindow.count ch) (cfgE0.ppr ch) 1003 = some (s'.rpm ch)) :=
  updateRpm_snapshot_reset cfgE0 6003 midWindow cfgE0_pprPos (by decide)

/-- Claim C6: if the count of a compiled-in channel with PPR >= 1 is 0 when
`updateRpm` recomputes, the RPM of the channel afterwards is 0, whatever it
was before. -/
theorem updateRpm_zero_count_zero_rpm (cfg : Config) (now : Nat) (s : FanTachs)
    (ch : Channel) (hp : cfg.PprPos) (hen : cfg.enabled ch = true)
    (hw : windowElapsed cfg now s = true) (h0 : s.count ch = 0) :
    ∃ s', updateRpm cfg now s = some s' ∧ s'.rpm ch = 0 ∧ rpmFan s' ch = 0 := by
  obtain ⟨s', hs, -, -, -, hr, -⟩ :=
    updateRpm_spec cfg now s hp ((windowElapsed_iff cfg now s).1 hw)
  have hz : s'.rpm ch = 0 := by
    rw [hr ch, if_pos hen, h0]
    simp [rpmVal, mul32]
  exact ⟨s', hs, hz, by rw [rpmFan_eq, hz]⟩

/-- Claim C6 for a fan that read 3000 RPM and then stalled for a whole
window. -/
theorem updateRpm_zero_count_zero_rpm_witness :
    ({ midWindow with count_e0 := 0 } : FanTachs).rpm .e0 = 3000 ∧
      ∃ s', updateRpm cfgE0 6003 { midWindow with count_e0 := 0 } = some s' ∧
        s'.rpm .e0 = 0 ∧ rpmFan s' .e0 = 0 :=
  ⟨by decide, updateRpm_zero_count_zero_rpm cfgE0 6003 { midWindow with count_e0 := 0 } .e0
    cfgE0_pprPos rfl (by decide) rfl⟩

/-! ## Edge detection (C7, C8) -/

theorem fullCountHigh_wf : fullCountHigh.WF := by
  refine ⟨?_, ?_, ?_, ?_, ?_⟩ <;> first | decide | (intro ch; cases ch <;> decide)

/-- Claim C7, as stated, fails: the counters are `uint16_t`, and a falling
edge that `updateCounts` sees when `count_e0` is 65535 wraps the counter to 0
instead of incrementing it by 1. -/
theorem updateCounts_increment_wraps :
    ¬ (∀ (cfg : Config) (pins : Pins) (s : FanTachs) (ch : Channel),
        s.WF → cfg.enabled ch = true → s.level ch ≠ 0 ∧ pins.read ch = false →
        (updateCounts cfg pins s).count ch = s.count ch + 1) := by
  intro h
  have h1 := h cfgPolled ⟨false, true, true, true⟩ fullCountHigh .e0 fullCountHigh_wf rfl
    ⟨by decide, rfl⟩
  rw [updateCounts_count] at h1
  revert h1
  decide

/-- Claim C7 (amended): one `updateCounts` call that observes level `v` on a
compiled-in channel, when the stored level was high and `v` is low, increments
the channel's count by exactly 1 if the count is below 65535 (in every case it
becomes `(count + 1) mod 2^16`, the `uint16_t` increment); it leaves the count
as it was in the three other cases; and it stores `v` as the channel's level
in every case. -/
theorem updateCounts_falling_edge (cfg : Config) (pins : Pins) (s : FanTachs) (ch : Channel)
    (hen : cfg.enabled ch = true) :
    (s.level ch ≠ 0 ∧ pins.read ch = false → s.count ch < 65535 →
      (updateCounts cfg pins s).count ch = s.count ch + 1) ∧
    (s.level ch ≠ 0 ∧ pins.read ch = false →
      (updateCounts cfg pins s).count ch = (s.count ch + 1) % 65536) ∧
    (¬ (s.level ch ≠ 0 ∧ pins.read ch = false) →
      (updateCounts cfg pins s).count ch = s.count ch) ∧
    (updateCounts cfg pins s).level ch = READ (pins.read ch) := by
  refine ⟨?_, ?_, ?_, ?_⟩
  · rintro ⟨hl, hv⟩ hlt
    rw [updateCounts_count, if_pos ⟨hen, hv, hl⟩, incr16]
    omega
  · rintro ⟨hl, hv⟩
    rw [updateCounts_count, if_pos ⟨hen, hv, hl⟩, incr16]
  · intro hn
    rw [updateCounts_count, if_neg (fun h => hn ⟨h.2.2, h.2.1⟩)]
  · rw [updateCounts_level, if_pos hen]

/-- Claim C7 (amended) on a falling edge of channel E0: stored level high,
pin read low, count 40 becomes 41 and the stored level becomes low. -/
theorem updateCounts_falling_edge_witness :
    (updateCounts cfgPolled ⟨false, true, true, true⟩ midWindow).count .e0 = 40 + 1 ∧
      (updateCounts cfgPolled ⟨false, true, true, true⟩ midWindow).level .e0 = 0 :=
  have h := updateCounts_falling_edge cfgPolled ⟨false, true, true, true⟩ midWindow .e0 rfl
  ⟨h.1 ⟨by decide, rfl⟩ (by decide), h.2.2.2⟩

theorem fullCount_wf : fullCount.WF := by
  refine ⟨?_, ?_, ?_, ?_, ?_⟩ <;> first | decide | (intro ch; cases ch <;> decide)

/-- Claim C8, as stated, fails: the counters are `uint16_t`, and an interrupt
that arrives when `count_e0` is 65535 wraps it to 0. -/
theorem edgeStep_count_can_decrease :
    ¬ (∀ (cfg : Config) (s s' : FanTachs), s.WF → EdgeStep cfg s s' →
        ∀ ch, s.count ch ≤ s'.count ch) := by
  intro h
  have h1 := h cfgE0 fullCount (isr_e0 fullCount) fullCount_wf
    (EdgeStep.isr_e0 fullCount rfl rfl) .e0
  revert h1
  decide

/-- Claim C8 (amended): an edge-detection step (an interrupt handler, or
`updateCounts` with any observed pin levels) never decreases the count of a
channel whose count is below 65535, the largest `uint16_t`, before the step;
the count then stays or grows by one. -/
theorem edgeStep_count_mono (cfg : Config) (s s' : FanTachs) (h : EdgeStep cfg s s')
    (ch : Channel) (hlt : s.count ch < 65535) :
    s.count ch ≤ s'.count ch ∧ s'.count ch ≤ s.count ch + 1 := by
  rcases edgeStep_count_cases cfg s s' h ch with h1 | ⟨-, h1⟩
  · rw [h1]
    omega
  · rw [h1, incr16]
    omega

/-- Claim C8 (amended) on one interrupt of channel E0 at count 40. -/
theorem edgeStep_count_mono_witness :
    EdgeStep cfgE0 midWindow (isr_e0 midWindow) ∧
      midWindow.count .e0 ≤ (isr_e0 midWindow).count .e0 ∧
      (isr_e0 midWindow).count .e0 ≤ midWindow.count .e0 + 1 :=
  ⟨EdgeStep.isr_e0 midWindow rfl rfl,
    edgeStep_count_mono cfgE0 midWindow (isr_e0 midWindow) (EdgeStep.isr_e0 midWindow rfl rfl)
      .e0 (by decide)⟩

/-! ## Disabled channels (C9) -/

/-- Claim C10: for every configured window (0 included), every build whose
compiled-in channels have PPR >= 1, every state and every clock value,
`updateRpm` returns a state, that is, no division of the conversion has a zero
divisor: whenever the guard lets the conversion run, the elapsed time is at
least 1 and so is the PPR of every channel that is converted. -/
theorem updateRpm_no_division_by_zero (cfg : Config) (now : Nat) (s : FanTachs)
    (hp : cfg.PprPos) :
    (∃ s', updateRpm cfg now s = some s') ∧
    (windowElapsed cfg now s = true →
      elapsedMs now s ≠ 0 ∧ ∀ ch, cfg.enabled ch = true → cfg.ppr ch ≠ 0) := by
  constructor
  · by_cases hw : cfg.FANTACH_SAMPLE_WINDOW_MS < elapsedMs now s
    · obtain ⟨s', hs, -⟩ := updateRpm_spec cfg now s hp hw
      exact ⟨s', hs⟩
    · exact ⟨s, updateRpm_of_not_window cfg now s (by omega)⟩
  · intro hw
    have hlt := (windowElapsed_iff cfg now s).1 hw
    refine ⟨by omega, fun ch hen => ?_⟩
    have := hp ch hen
    omega

/-- Claim C10 with a window of 0 ms: 1 ms after the window start the
conversion runs and divides by 2 and by 1. -/
theorem updateRpm_no_division_by_zero_witness :
    (∃ s', updateRpm { cfgE0 with FANTACH_SAMPLE_WINDOW_MS := 0 } 5001 midWindow = some s') ∧
    (windowElapsed { cfgE0 with FANTACH_SAMPLE_WINDOW_MS := 0 } 5001 midWindow = true →
      elapsedMs 5001 midWindow ≠ 0 ∧
      ∀ ch, ({ cfgE0 with FANTACH_SAMPLE_WINDOW_MS := 0 } : Config).enabled ch = true →
        ({ cfgE0 with FANTACH_SAMPLE_WINDOW_MS := 0 } : Config).ppr ch ≠ 0) :=
  updateRpm_no_division_by_zero { cfgE0 with FANTACH_SAMPLE_WINDOW_MS := 0 } 5001 midWindow
    (by intro ch h; cases ch <;> simp_all [cfgE0, Config.enabled, Config.ppr])

/-! ## Helper lemmas for the phases of `updateRpm` and for polling -/

theorem recompute_eq_phases (cfg : Config) (now e : Nat) (s : FanTachs) :
    recompute cfg now e s =
      rpmConvert cfg e (criticalSection cfg { s with last_rpm_update_ms := now }).2
        (criticalSection cfg { s with last_rpm_update_ms := now }).1 := by
  rcases cfg with ⟨i, a, b, c, d, pa, pb, pc, pd, w⟩
  cases a <;> cases b <;> cases c <;> cases d <;> rfl

theorem criticalSection_count (cfg : Config) (s : FanTachs) (ch : Channel) :
    (criticalSection cfg s).1.count ch = (if cfg.enabled ch = true then 0 else s.count ch) ∧
    (criticalSection cfg s).2.get ch = s.count ch := by
  rcases cfg with ⟨i, a, b, c, d, pa, pb, pc, pd, w⟩
  cases ch <;> cases a <;> cases b <;> cases c <;> cases d <;>
    simp [criticalSection, FanTachs.count, Tmp.get, Config.enabled]

theorem rpmConvert_count (cfg : Config) (e : Nat) (tmp : Tmp) (s s' : FanTachs)
    (h : rpmConvert cfg e tmp s = some s') (ch : Channel) : s'.count ch = s.count ch := by
  rcases cfg with ⟨i, a, b, c, d, pa, pb, pc, pd, w⟩
  cases a <;> cases b <;> cases c <;> cases d <;>
    simp only [rpmConvert, Option.bind_eq_bind, Option.pure_def, Bool.false_eq_true, if_false,
      if_true, Option.some_bind, Option.bind_eq_some, Option.map_eq_some', Option.some.injEq] at h <;>
    (try obtain ⟨_, ⟨r0, hr0, rfl⟩, h⟩ := h) <;>
    (try obtain ⟨_, ⟨r1, hr1, rfl⟩, h⟩ := h) <;>
    (try obtain ⟨_, ⟨r2, hr2, rfl⟩, h⟩ := h) <;>
    (try obtain ⟨_, ⟨r3, hr3, rfl⟩, h⟩ := h) <;>
    (try subst h) <;>
    cases ch <;> rfl

theorem rpmEnter_count (cfg : Config) (now : Nat) (s : FanTachs) (ch : Channel) :
    (rpmEnter cfg now s).1.count ch = s.count ch := by
  unfold rpmEnter
  simp only
  split_ifs <;> cases ch <;> rfl

theorem isr_count (c ch : Channel) (s : FanTachs) :
    (isr c s).count ch = if c = ch then incr16 (s.count ch) else s.count ch := by
  cases c <;> cases ch <;> simp [isr, isr_e0, isr_e1, isr_0, isr_1, FanTachs.count]

theorem step_balance (cfg : Config) (ch : Channel) (ev : Event) (m m' : Machine)
    (h : Machine.step cfg ev m = some m')
    (hno : incrementsAt cfg ch ev m ≠ 0 → m.mem.count ch < 65535) :
    capturedAt cfg ch ev m + m'.mem.count ch = m.mem.count ch + incrementsAt cfg ch ev m := by
  rcases m with ⟨s, ph⟩
  cases ev with
  | isr c =>
    simp only [Machine.step] at h
    split_ifs at h with hc
    cases h
    simp only [capturedAt, incrementsAt, isr_count] at hno ⊢
    split_ifs at hno ⊢ with hcc
    · have := hno (by decide)
      unfold incr16
      omega
    · omega
  | poll pins =>
    simp only [Machine.step] at h
    split_ifs at h with hc
    cases h
    simp only [capturedAt, incrementsAt, updateCounts_count, READ_eq_zero] at hno ⊢
    split_ifs at hno ⊢ with hcc
    · have := hno (by decide)
      unfold incr16
      omega
    · omega
  | rpmEnter now =>
    cases ph <;> simp only [Machine.step] at h <;> try cases h
    have hc := rpmEnter_count cfg now s ch
    rcases hr : rpmEnter cfg now s with ⟨s1, _ | e⟩ <;> rw [hr] at h hc <;>
      simp only [Option.some.injEq] at h <;> subst h <;>
      simp only [capturedAt, incrementsAt] <;> simp only at hc <;> omega
  | rpmCritical =>
    cases ph <;> simp only [Machine.step] at h <;> try cases h
    obtain ⟨h1, h2⟩ := criticalSection_count cfg s ch
    simp only [capturedAt, incrementsAt, h1, h2]
    split_ifs <;> omega
  | rpmFinish =>
    cases ph with
    | captured e tmp =>
      simp only [Machine.step, Option.map_eq_some'] at h
      obtain ⟨s1, hs1, rfl⟩ := h
      have := rpmConvert_count cfg _ _ s s1 hs1 ch
      simp only [capturedAt, incrementsAt]
      omega
    | _ => simp [Machine.step] at h

theorem updateRpm_eq_phases (cfg : Config) (now : Nat) (s : FanTachs) :
    (windowElapsed cfg now s = true →
      Machine.run cfg [.rpmEnter now, .rpmCritical, .rpmFinish] ⟨s, .idle⟩ =
        (updateRpm cfg now s).map (fun s' => ⟨s', .idle⟩)) ∧
    (windowElapsed cfg now s = false →
      Machine.run cfg [.rpmEnter now] ⟨s, .idle⟩ =
        (updateRpm cfg now s).map (fun s' => ⟨s', .idle⟩)) := by
  constructor
  · intro hw
    have hlt := (windowElapsed_iff cfg now s).1 hw
    rw [updateRpm_of_window cfg now s hlt, recompute_eq_phases]
    simp only [Machine.run, Machine.step, rpmEnter, hlt, if_true, Option.some_bind,
      Option.bind_eq_bind]
    cases rpmConvert cfg (elapsedMs now s)
      (criticalSection cfg { s with last_rpm_update_ms := now }).2
      (criticalSection cfg { s with last_rpm_update_ms := now }).1 <;> rfl
  · intro hw
    have hle : elapsedMs now s ≤ cfg.FANTACH_SAMPLE_WINDOW_MS := by
      by_contra hcon
      have := (windowElapsed_iff cfg now s).2 (by omega)
      rw [hw] at this
      cases this
    have hnlt : ¬ cfg.FANTACH_SAMPLE_WINDOW_MS < elapsedMs now s := by omega
    rw [updateRpm_of_not_window cfg now s hle]
    simp [Machine.run, Machine.step, rpmEnter, hnlt]

theorem fallsFrom_change (p a : Bool) (l : List Bool) :
    fallsFrom p l ≤ fallsFrom a l + (if p = true ∧ a = false then 1 else 0) := by
  cases l with
  | nil => simp [fallsFrom]
  | cons v vs => cases p <;> cases a <;> cases v <;> (simp [fallsFrom]; try omega)

theorem fallsFrom_sublist {l₁ l₂ : List Bool} (h : l₁.Sublist l₂) (p : Bool) :
    fallsFrom p l₁ ≤ fallsFrom p l₂ := by
  induction h generalizing p with
  | slnil => exact Nat.le_refl _
  | @cons k₁ k₂ a _ ih =>
    have h1 := fallsFrom_change p a k₁
    have h2 := ih a
    simp only [fallsFrom]
    omega
  | cons₂ a _ ih =>
    have h2 := ih a
    simp only [fallsFrom]
    omega

theorem fallsFrom_false (l : List Bool) : fallsFrom false l = fallingEdges l := by
  cases l with
  | nil => rfl
  | cons v vs => simp [fallsFrom, fallingEdges]

theorem pollAll_count (cfg : Config) (ch : Channel) (hen : cfg.enabled ch = true)
    (polls : List Pins) (s : FanTachs)
    (hno : s.count ch + fallsFrom (decide (s.level ch ≠ 0)) (polls.map (fun p => p.read ch))
      ≤ 65535) :
    (pollAll cfg polls s).count ch =
      s.count ch + fallsFrom (decide (s.level ch ≠ 0)) (polls.map (fun p => p.read ch)) := by
  induction polls generalizing s with
  | nil => simp [pollAll, fallsFrom]
  | cons pins polls ih =>
    have hl : decide ((updateCounts cfg pins s).level ch ≠ 0) = pins.read ch := by
      rw [updateCounts_level, if_pos hen]
      cases pins.read ch <;> simp [READ]
    have hc := updateCounts_count cfg pins s ch
    simp only [List.map_cons, fallsFrom] at hno ⊢
    simp only [pollAll]
    have ih' := ih (updateCounts cfg pins s)
    rw [hl] at ih'
    by_cases hedge : pins.read ch = false ∧ s.level ch ≠ 0
    · rw [if_pos ⟨hen, hedge⟩] at hc
      have h1 : (decide (s.level ch ≠ 0) = true ∧ pins.read ch = false) := by
        exact ⟨by simpa using hedge.2, hedge.1⟩
      rw [if_pos h1] at hno ⊢
      rw [hc, incr16] at ih'
      rw [ih' (by omega)]
      omega
    · rw [if_neg (fun h => hedge h.2)] at hc
      have h1 : ¬ (decide (s.level ch ≠ 0) = true ∧ pins.read ch = false) := by
        intro h
        exact hedge ⟨h.2, by simpa using h.1⟩
      rw [if_neg h1] at hno ⊢
      rw [hc] at ih'
      rw [ih' (by omega)]
      omega

theorem edgeStep_timestamps (cfg : Config) (s s' : FanTachs) (h : EdgeStep cfg s s') :
    s'.last_rpm_update_ms = s.last_rpm_update_ms ∧
    s'.last_rpm_interval_ms = s.last_rpm_interval_ms := by
  cases h with
  | isr_e0 hi he => exact ⟨rfl, rfl⟩
  | isr_e1 hi he => exact ⟨rfl, rfl⟩
  | isr_0 hi he => exact ⟨rfl, rfl⟩
  | isr_1 hi he => exact ⟨rfl, rfl⟩
  | updateCounts pins hi => exact (updateCounts_frame cfg pins s).2

theorem updateRpm_level (cfg : Config) (now : Nat) (s s' : FanTachs)
    (h : updateRpm cfg now s = some s') (ch : Channel) : s'.level ch = s.level ch := by
  unfold updateRpm at h
  simp only at h
  split_ifs at h with hw
  · exact (recompute_some cfg now _ s s' h).2.2.2.1 ch
  · cases h
    rfl

/-! ## Edges across the snapshot-and-reset boundary (C11) -/

/-- Claim C11: along every execution that interleaves edge steps (interrupt
handlers, or `updateCounts` calls) with the parts of `updateRpm` calls, the
critical section being one atomic step, and in which no counter reaches 2^16,
the sum of the counts captured for a channel plus the channel's final counter
equals the counter at the start plus the number of increments performed on
the channel: no edge is lost and none is counted twice. -/
theorem no_edge_lost_or_double_counted (cfg : Config) (ch : Channel) (evs : List Event)
    (m m' : Machine) (hrun : Machine.run cfg evs m = some m')
    (hno : NoWrap cfg ch evs m = true) :
    capturedSum cfg ch evs m + m'.mem.count ch =
      m.mem.count ch + incrementsSum cfg ch evs m := by
  induction evs generalizing m with
  | nil =>
    simp only [Machine.run, Option.some.injEq] at hrun
    subst hrun
    simp [capturedSum, incrementsSum]
  | cons ev evs ih =>
    simp only [Machine.run, Option.bind_eq_some] at hrun
    obtain ⟨m1, hstep, hrest⟩ := hrun
    simp only [NoWrap, hstep, Bool.and_eq_true, Bool.or_eq_true, decide_eq_true_eq] at hno
    have hb := step_balance cfg ch ev m m1 hstep (fun hne => hno.1.resolve_left hne)
    have hi := ih m1 hrest hno.2
    simp only [capturedSum, incrementsSum, hstep]
    omega

/-- Claim C11 on `boundaryTrace`, from a counter of 40: pulses arrive just
before and just after the critical section; 42 are captured, 2 remain, and
4 increments were performed. -/
theorem no_edge_lost_or_double_counted_witness :
    capturedSum cfgE0 .e0 boundaryTrace ⟨midWindow, .idle⟩ = 42 ∧
    incrementsSum cfgE0 .e0 boundaryTrace ⟨midWindow, .idle⟩ = 4 ∧
    capturedSum cfgE0 .e0 boundaryTrace ⟨midWindow, .idle⟩ +
        ({ midWindow with count_e0 := 2, rpm_e0 := 1256, last_rpm_update_ms := 6003 } :
          FanTachs).count .e0 =
      midWindow.count .e0 + incrementsSum cfgE0 .e0 boundaryTrace ⟨midWindow, .idle⟩ :=
  ⟨by decide, by decide,
    no_edge_lost_or_double_counted cfgE0 .e0 boundaryTrace ⟨midWindow, .idle⟩
      ⟨{ midWindow with count_e0 := 2, rpm_e0 := 1256, last_rpm_update_ms := 6003 }, .idle⟩
      (by decide) (by decide)⟩

/-! ## Polled undercount (C13) -/

/-- Claim C13: for every waveform `w`, every strictly increasing sequence of
sample positions into `w`, and polls of a compiled-in channel that see the
levels at those positions in order, starting from stored level low and without
overflow of the counter: the number of increments `updateCounts` performs
equals the number of adjacent high-then-low pairs of the sampled sequence (the
reference model) and is at most the number of falling edges of `w`. -/
theorem polled_undercount (cfg : Config) (ch : Channel) (hen : cfg.enabled ch = true)
    (w : List Bool) (positions : List (Fin w.length))
    (hpos : positions.Pairwise (fun i j => i < j))
    (polls : List Pins)
    (hpolls : polls.map (fun p => p.read ch) = positions.map (fun i => w[i]))
    (s : FanTachs) (hlow : s.level ch = 0)
    (hno : s.count ch + fallingEdges (positions.map (fun i => w[i])) ≤ 65535) :
    (pollAll cfg polls s).count ch =
      s.count ch + fallingEdges (positions.map (fun i => w[i])) ∧
    fallingEdges (positions.map (fun i => w[i])) ≤ fallingEdges w := by
  constructor
  · have h := pollAll_count cfg ch hen polls s
    rw [hlow, hpolls] at h
    simp only [ne_eq, not_true_eq_false, decide_False, fallsFrom_false] at h
    exact h hno
  · rw [← fallsFrom_false, ← fallsFrom_false w]
    exact fallsFrom_sublist (List.map_getElem_sublist hpos) false

/-- Claim C13 on a waveform with four falling edges polled at positions 0, 1,
4, 6: the samples are high, low, high, high and one edge is counted. -/
theorem polled_undercount_witness :
    (pollAll cfgPolled coarsePolls initial).count .e0 = 0 + 1 ∧ 1 ≤ 4 :=
  polled_undercount cfgPolled .e0 rfl fastWave coarsePositions (by decide) coarsePolls
    (by decide) initial rfl (by decide)

/-! ## What each operation leaves alone (C16) -/

/-- Claim C16: an edge-detection step (an interrupt handler, or
`updateCounts` with any observed pin levels) leaves every channel's RPM,
`last_rpm_update_ms` and `last_rpm_interval_ms` as they were, and an
`updateRpm` call, which always returns when every compiled-in channel has
PPR >= 1, leaves every channel's stored signal level as it was. -/
theorem rpm_changed_only_by_updateRpm (cfg : Config) (s : FanTachs) :
    (∀ s', EdgeStep cfg s s' →
      (∀ ch, s'.rpm ch = s.rpm ch) ∧
      s'.last_rpm_update_ms = s.last_rpm_update_ms ∧
      s'.last_rpm_interval_ms = s.last_rpm_interval_ms) ∧
    (∀ now s', updateRpm cfg now s = some s' → ∀ ch, s'.level ch = s.level ch) ∧
    (cfg.PprPos → ∀ now, ∃ s', updateRpm cfg now s = some s' ∧
      ∀ ch, s'.level ch = s.level ch) := by
  refine ⟨fun s' h => ⟨edgeStep_rpm cfg s s' h, edgeStep_timestamps cfg s s' h⟩,
    fun now s' h => updateRpm_level cfg now s s' h, fun hp now => ?_⟩
  by_cases hw : cfg.FANTACH_SAMPLE_WINDOW_MS < elapsedMs now s
  · obtain ⟨s', hs, -, -, -, -, hl⟩ := updateRpm_spec cfg now s hp hw
    exact ⟨s', hs, hl⟩
  · exact ⟨s, updateRpm_of_not_window cfg now s (by omega), fun _ => rfl⟩

/-- Claim C16 on one falling edge seen by `updateCounts` and on one
recomputing `updateRpm`, from `midWindow` (RPM 3000, stored level high). -/
theorem rpm_changed_only_by_updateRpm_witness :
    (updateCounts cfgPolled ⟨false, true, true, true⟩ midWindow).rpm .e0 = 3000 ∧
    (updateCounts cfgPolled ⟨false, true, true, true⟩ midWindow).last_rpm_update_ms = 5000 ∧
    ∃ s', updateRpm cfgPolled 6003 midWindow = some s' ∧ ∀ ch, s'.level ch = midWindow.level ch :=
  have h := rpm_changed_only_by_updateRpm cfgPolled midWindow
  have h1 := h.1 _ (EdgeStep.updateCounts midWindow ⟨false, true, true, true⟩ rfl)
  ⟨h1.1 .e0, h1.2.1,
    h.2.2 (by intro ch hen; cases ch <;> simp_all [cfgPolled, Config.enabled, Config.ppr]) 6003⟩

/-! ## The diagnostic report (C12) -/

/-- Claim C12: `printTachRpms` returns the tachometer state it was given
(every count, RPM, polled level and both time stamps) and appends to the sink,
for exactly the compiled-in channels in the order E0, E1, 0, 1, the channel's
label (" E0: ", " E1: ", " 0: ", " 1: ") paired with the channel's stored RPM,
followed by exactly one end of line. -/
theorem printTachRpms_report (cfg : Config) (s : FanTachs) (out : List SerialOut) :
    (printTachRpms cfg s out).1 = s ∧
    (printTachRpms cfg s out).2 =
      out ++ ((Channel.all.filter cfg.enabled).map
        (fun ch => SerialOut.pair ch.label (s.rpm ch))) ++ [SerialOut.eol] := by
  rcases cfg with ⟨i, a, b, c, d, pa, pb, pc, pd, w⟩
  cases a <;> cases b <;> cases c <;> cases d <;>
    simp [printTachRpms, SERIAL_PROTOCOLPAIR, SERIAL_EOL, Channel.all, Channel.label,
      Config.enabled, FanTachs.rpm, List.filter]

/-- Claim C12 on the polled build with channels E0 and 0, from `midWindow`. -/
theorem printTachRpms_report_witness :
    (printTachRpms cfgPolled midWindow []).1 = midWindow ∧
    (printTachRpms cfgPolled midWindow []).2 =
      [SerialOut.pair " E0: " 3000, SerialOut.pair " 0: " 0, SerialOut.eol] :=
  printTachRpms_report cfgPolled midWindow []

/-! ## Rounding and width of the conversion (C14, C15, C18) -/

/-- Claim C14, as stated, fails: no 16-bit count, PPR >= 1 and elapsed time
>= 1 with `PPR * elapsed_ms` below 2^32 make the three-step division of
`updateRpm` differ from the single division, neither in the quotient nor in
the stored 16-bit value. -/
theorem rpm_three_step_never_differs :
    ¬ ∃ c ppr e : Nat, c < 65536 ∧ 1 ≤ ppr ∧ 1 ≤ e ∧ ppr * e < 4294967296 ∧
        c * 60000 < 4294967296 ∧
        (c * 60000 / ppr / e ≠ c * 60000 / (ppr * e) ∨ rpmOf c ppr e ≠ rpmSingle c ppr e) := by
  rintro ⟨c, ppr, e, hc, hp, he, hpe, -, h⟩
  have hp0 : ppr ≠ 0 := by omega
  have he0 : e ≠ 0 := by omega
  have hpe0 : ppr * e ≠ 0 := Nat.mul_ne_zero hp0 he0
  rcases h with h | h
  · exact h (Nat.div_div_eq_div_mul _ _ _)
  · apply h
    simp [rpmOf, rpmSingle, udiv, mul32, hp0, he0, hpe0, Nat.mod_eq_of_lt hpe,
      Nat.div_div_eq_div_mul]

/-- Claim C14 (amended): for every count, every PPR >= 1 and every elapsed
time >= 1 whose product `PPR * elapsed_ms` is representable in 32 bits, the
three-step truncating division `count*60000/ppr/elapsed_ms` used by
`updateRpm` gives the same result as the single truncating division
`count*60000/(ppr*elapsed_ms)`, in the quotient and in the stored value. -/
theorem rpm_three_step_eq_single (c ppr e : Nat) (hp : 1 ≤ ppr) (he : 1 ≤ e)
    (hpe : ppr * e < 4294967296) :
    c * 60000 / ppr / e = c * 60000 / (ppr * e) ∧
    rpmOf c ppr e = rpmSingle c ppr e ∧
    rpmOf c ppr e = some (rpmVal c ppr e) := by
  have hp0 : ppr ≠ 0 := by omega
  have he0 : e ≠ 0 := by omega
  have hpe0 : ppr * e ≠ 0 := Nat.mul_ne_zero hp0 he0
  refine ⟨Nat.div_div_eq_div_mul _ _ _, ?_, rpmOf_eq c ppr e hp he⟩
  simp [rpmOf, rpmSingle, udiv, mul32, hp0, he0, hpe0, Nat.mod_eq_of_lt hpe,
    Nat.div_div_eq_div_mul]

/-- Claim C14 (amended) in a low-count, long-window case: one pulse, PPR 7,
4001 ms. -/
theorem rpm_three_step_eq_single_witness :
    1 * 60000 / 7 / 4001 = 1 * 60000 / (7 * 4001) ∧
    rpmOf 1 7 4001 = rpmSingle 1 7 4001 ∧
    rpmOf 1 7 4001 = some (rpmVal 1 7 4001) :=
  rpm_three_step_eq_single 1 7 4001 (by decide) (by decide) (by decide)

/-- Claim C15: for every 16-bit count `c`, the product `(uint32_t)c * 60 * 1000`
of the conversion, each multiplication taken modulo 2^32, is the exact integer
`c * 60000`; neither multiplication wraps. -/
theorem rpm_product_no_overflow (c : Nat) (hc : c ≤ 65535) :
    mul32 (mul32 (c % 4294967296) 60) 1000 = c * 60000 ∧
    c * 60 < 4294967296 ∧ c * 60000 < 4294967296 := by
  unfold mul32
  omega

/-- Claim C15 at the largest count: 65535 * 60000 = 3932100000 < 2^32. -/
theorem rpm_product_no_overflow_witness :
    mul32 (mul32 (65535 % 4294967296) 60) 1000 = 65535 * 60000 ∧
    65535 * 60 < 4294967296 ∧ 65535 * 60000 < 4294967296 :=
  rpm_product_no_overflow 65535 (by decide)

/-- Claim C18: for a compiled-in channel with PPR >= 1, a 16-bit captured
count N and an elapsed time T for which `updateRpm` recomputes, the stored RPM
is `(N*60000/PPR/T) mod 2^16` (left to right, truncating); it equals the
quotient exactly when the quotient is at most 65535 and is strictly smaller
otherwise. -/
theorem updateRpm_rpm_mod_2_16 (cfg : Config) (now : Nat) (s : FanTachs) (ch : Channel)
    (hp : cfg.PprPos) (hen : cfg.enabled ch = true) (hc : s.count ch < 65536)
    (hw : windowElapsed cfg now s = true) :
    ∃ s', updateRpm cfg now s = some s' ∧
      s'.rpm ch = s.count ch * 60000 / cfg.ppr ch / elapsedMs now s % 65536 ∧
      (s'.rpm ch = s.count ch * 60000 / cfg.ppr ch / elapsedMs now s ↔
        s.count ch * 60000 / cfg.ppr ch / elapsedMs now s ≤ 65535) ∧
      (65535 < s.count ch * 60000 / cfg.ppr ch / elapsedMs now s →
        s'.rpm ch < s.count ch * 60000 / cfg.ppr ch / elapsedMs now s) := by
  obtain ⟨s', hs, -, -, -, hr, -⟩ :=
    updateRpm_spec cfg now s hp ((windowElapsed_iff cfg now s).1 hw)
  have hq : s'.rpm ch = s.count ch * 60000 / cfg.ppr ch / elapsedMs now s % 65536 := by
    rw [hr ch, if_pos hen, rpmVal_of_lt _ _ _ hc]
  refine ⟨s', hs, hq, ?_, ?_⟩
  · rw [hq]
    generalize s.count ch * 60000 / cfg.ppr ch / elapsedMs now s = q
    omega
  · rw [hq]
    generalize s.count ch * 60000 / cfg.ppr ch / elapsedMs now s = q
    omega

/-- Claim C18 where the quotient does not fit: PPR 1, 2000 pulses in 1001 ms
give the quotient 119880, stored as 119880 - 65536 = 54344. -/
theorem updateRpm_rpm_mod_2_16_witness :
    ∃ s', updateRpm cfgFast 1001 { initial with count_e0 := 2000 } = some s' ∧
      s'.rpm .e0 = 54344 ∧
      (s'.rpm .e0 = 119880 ↔ 119880 ≤ 65535) ∧
      (65535 < 119880 → s'.rpm .e0 < 119880) :=
  updateRpm_rpm_mod_2_16 cfgFast 1001 { initial with count_e0 := 2000 } .e0
    cfgFast_pprPos rfl (by decide) (by decide)

/-! ## The interrupt mapping (C17) -/

/-- Claim C17: the ATmega2560 `digitalPinToInterrupt` agrees with the table of
the source comment on every pin: 2, 3, 4, 5 for pins 21, 20, 19, 18; 0 and 1
for pins 2 and 3; 6 and 7 for pins 79 and 80; `NOT_AN_INTERRUPT` for every
other pin.  It is injective on the eight pins, and the numbers it gives them
are exactly 0..7. -/
theorem digitalPinToInterrupt_table (nai : Int) :
    (∀ pn ∈ interruptTable, digitalPinToInterrupt nai pn.1 = pn.2) ∧
    (∀ p : Int, p ∉ interruptPins → digitalPinToInterrupt nai p = nai) ∧
    (∀ p ∈ interruptPins, ∀ q ∈ interruptPins,
      digitalPinToInterrupt nai p = digitalPinToInterrupt nai q → p = q) ∧
    (∀ n : Int, (∃ p ∈ interruptPins, digitalPinToInterrupt nai p = n) ↔ 0 ≤ n ∧ n ≤ 7) := by
  refine ⟨?_, ?_, ?_, ?_⟩
  · intro pn h
    simp only [interruptTable, List.mem_cons, List.mem_singleton, List.not_mem_nil,
      or_false] at h
    rcases h with h | h | h | h | h | h | h | h <;> subst h <;> simp [digitalPinToInterrupt]
  · intro p h
    simp only [interruptPins, List.mem_cons, List.mem_singleton, List.not_mem_nil,
      or_false, not_or] at h
    unfold digitalPinToInterrupt
    split_ifs <;> omega
  · intro p hp q hq
    simp only [interruptPins, List.mem_cons, List.mem_singleton, List.not_mem_nil,
      or_false] at hp hq
    rcases hp with h | h | h | h | h | h | h | h <;> subst h <;>
      rcases hq with h | h | h | h | h | h | h | h <;> subst h <;> simp [digitalPinToInterrupt]
  · intro n
    constructor
    · rintro ⟨p, hp, rfl⟩
      simp only [interruptPins, List.mem_cons, List.mem_singleton, List.not_mem_nil,
        or_false] at hp
      rcases hp with h | h | h | h | h | h | h | h <;> subst h <;> simp [digitalPinToInterrupt]
    · rintro ⟨h0, h7⟩
      have hn : n = 0 ∨ n = 1 ∨ n = 2 ∨ n = 3 ∨ n = 4 ∨ n = 5 ∨ n = 6 ∨ n = 7 := by omega
      rcases hn with h | h | h | h | h | h | h | h <;> subst h
      · exact ⟨2, by decide, by simp [digitalPinToInterrupt]⟩
      · exact ⟨3, by decide, by simp [digitalPinToInterrupt]⟩
      · exact ⟨21, by decide, by simp [digitalPinToInterrupt]⟩
      · exact ⟨20, by decide, by simp [digitalPinToInterrupt]⟩
      · exact ⟨19, by decide, by simp [digitalPinToInterrupt]⟩
      · exact ⟨18, by decide, by simp [digitalPinToInterrupt]⟩
      · exact ⟨79, by decide, by simp [digitalPinToInterrupt]⟩
      · exact ⟨80, by decide, by simp [digitalPinToInterrupt]⟩

/-- Claim C17 with the Arduino value -1 of `NOT_AN_INTERRUPT`: pin 21 maps to
interrupt 2 and pin 22 is not interrupt-capable. -/
theorem digitalPinToInterrupt_table_witness :
    digitalPinToInterrupt (-1) 21 = 2 ∧ digitalPinToInterrupt (-1) 22 = -1 :=
  have h := digitalPinToInterrupt_table (-1)
  ⟨h.1 (21, 2) (by decide), h.2.1 22 (by decide)⟩

end FanTach
